import Mathlib

/-!
Shallow embedding of sherlock (src/sherlock.py): a distributed mutex built on
memcache add-if-absent and a guarded-execution wrapper that runs a child
command under the lock. Definitions follow the Python source; theorems check
the specification claims against them.
-/

/-- Contents of the memcache store: an association list from keys to the
stored string values. -/
abbrev Store := List (String × String)

/-- Lookup of a key in the store (memcache get). -/
def storeLookup : Store → String → Option String
  | [], _ => none
  | (k', v) :: rest, k => if k' = k then some v else storeLookup rest k

/-- memcache add: atomic add-if-absent. Stores the value and reports true when
the key is absent; leaves the store unchanged and reports false when the key is
already present. -/
def storeAdd (s : Store) (k v : String) : Bool × Store :=
  match storeLookup s k with
  | some _ => (false, s)
  | none => (true, (k, v) :: s)

/-- memcache delete: removes the key from the store; idempotent. -/
def storeDelete (s : Store) (k : String) : Store :=
  s.filter (fun p => !(p.1 == k))

/-- Observable effects issued by the program, in order. -/
inductive Event where
  /-- One cli.add(key, value) call and its result. -/
  | addAttempt (key val : String) (ok : Bool)
  /-- One time.sleep call, duration in milliseconds. -/
  | sleepMs (ms : Nat)
  /-- os.fork followed by os.execvp of the target command. -/
  | spawnChild
  /-- One cli.delete(key) call. -/
  | deleteKey (key : String)
deriving DecidableEq

/-- Duration of time.sleep(0.1) in the retry loop: 0.1 seconds = 100 ms. -/
def retrySleepMs : Nat := 100

/-- Outcome of MemcacheMutex.acquire: normal return with the resulting store,
or the AcquireDenied exception with the store it saw. -/
inductive AcqOutcome where
  | acquired (s : Store)
  | denied (s : Store)
deriving DecidableEq

/-- The mutex object: the lock key and the retry flag from the constructor. -/
structure MemcacheMutex where
  key : String
  retry : Bool
deriving DecidableEq

/-- MemcacheMutex.acquire: loop calling cli.add(key, utcnow). On success return
normally; on failure raise AcquireDenied when retry is disabled, otherwise
sleep 0.1 s and try again. The argument stores gives the store contents the
n-th add attempt observes (other contenders may mutate the store between
attempts); nows gives the utcnow timestamp string at each attempt. The loop is
unbounded, so fuel limits how many attempts we unfold: none means the loop is
still running after fuel attempts. -/
def MemcacheMutex.acquire (m : MemcacheMutex) (stores : Nat → Store)
    (nows : Nat → String) : Nat → Nat → Option (List Event × AcqOutcome)
  | 0, _ => none
  | fuel + 1, n =>
    let r := storeAdd (stores n) m.key (nows n)
    let e := Event.addAttempt m.key (nows n) r.1
    if r.1 then some ([e], .acquired r.2)
    else if !m.retry then some ([e], .denied (stores n))
    else
      match m.acquire stores nows fuel (n + 1) with
      | none => none
      | some (es, out) => some (e :: Event.sleepMs retrySleepMs :: es, out)

/-- MemcacheMutex.release: unconditionally cli.delete(key). Returns the new
store and the emitted events. -/
def MemcacheMutex.release (m : MemcacheMutex) (s : Store) : Store × List Event :=
  (storeDelete s m.key, [Event.deleteKey m.key])

/-- Behavior of the forked child as seen from the parent process. -/
inductive ChildBehavior where
  /-- execvp succeeded and the child exited normally with this code. -/
  | exits (code : Nat)
  /-- os.fork raised OSError in the parent; no child was created. -/
  | spawnFailure
deriving DecidableEq

/-- Encoding of a normal exit in the 16-bit status returned by os.waitpid:
the exit code (mod 256) sits in the high byte, the low byte is zero. -/
def waitStatus (code : Nat) : Nat := (code % 256) * 256

/-- run_process: fork, execvp in the child, waitpid in the parent. Returns the
raw waitpid status together with the spawn event, or propagates the OSError
when fork fails (ret keeps its initial value 0 in that case, but the exception
escapes before the return). -/
def run_process (child : ChildBehavior) : Except Unit (Nat × List Event) :=
  match child with
  | .spawnFailure => .error ()
  | .exits c => .ok (waitStatus c, [Event.spawnChild])

/-- A Python process calling exit(ret) with a nonnegative int is observed by
the operating system with status ret mod 256. -/
def observedStatus (ret : Nat) : Nat := ret % 256

/-- A SystemExit raised with a string message (as panic does) terminates the
interpreter with status 1. -/
def systemExitStatus : Nat := 1

/-- Result of one run of main. -/
inductive MainResult where
  /-- Unhandled IndexError from reading args[0] on an empty argument list. -/
  | indexError
  /-- SystemExit raised by panic, with exit status and diagnostic message. -/
  | fatalExit (status : Nat) (msg : String)
  /-- acquire is still retrying after the available fuel. -/
  | blocked
  /-- Normal termination through exit(ret); ret is the raw argument. -/
  | exitStatus (ret : Nat)
deriving DecidableEq

/-- Whether main reached the final exit(ret) call. -/
def MainResult.isExit : MainResult → Bool
  | .exitStatus _ => true
  | _ => false

/-- Everything observable about one run of main. -/
structure MainOutput where
  result : MainResult
  finalStore : Store
  events : List Event
deriving DecidableEq

/-- main(): argv is sys.argv[1:]; reachable is whether cli.get_stats() in the
MemcacheMutex constructor returned anything; servers is the MEMCACHE
configuration value (used in the panic message); key is the MEMCACHE_KEY
value. The store is static apart from the operations of this process itself
(a single-contender environment), so every acquire attempt sees the same
initial store. The guarded command line is abstracted by child. -/
def sherlockMain (fuel : Nat) (argv : List String) (reachable : Bool)
    (servers : String) (store : Store) (key : String) (nows : Nat → String)
    (child : ChildBehavior) : MainOutput :=
  match argv with
  | [] => ⟨.indexError, store, []⟩
  | a0 :: rest =>
    let once := a0 == "-once"
    let _args := if once then rest else a0 :: rest
    if !reachable then
      ⟨.fatalExit systemExitStatus ("No reachable memcache servers: " ++ servers),
       store, []⟩
    else
      let m : MemcacheMutex := ⟨key, !once⟩
      match m.acquire (fun _ => store) nows fuel 0 with
      | none => ⟨.blocked, store, []⟩
      | some (es, .denied s) =>
        let r := m.release s
        ⟨.exitStatus 0, r.1, es ++ r.2⟩
      | some (es, .acquired s) =>
        match run_process child with
        | .error _ =>
          let r := m.release s
          ⟨.exitStatus 0, r.1, es ++ r.2⟩
        | .ok (ret, es2) =>
          let r := m.release s
          ⟨.exitStatus ret, r.1, es ++ es2 ++ r.2⟩

/-- Expected event trace of k failed add attempts starting at attempt index n,
each followed by the fixed 100 ms sleep of the retry loop. -/
def retryTrace (key : String) (nows : Nat → String) : Nat → Nat → List Event
  | _, 0 => []
  | n, k + 1 =>
    Event.addAttempt key (nows n) false :: Event.sleepMs retrySleepMs ::
      retryTrace key nows (n + 1) k

/-- Concrete environment used by witnesses: the key is held by another party
at attempts 0 and 1 and absent from attempt 2 on. -/
def storesHeldTwice : Nat → Store := fun n => if n < 2 then [("k", "o")] else []

/-! ## Helper lemmas -/

/-- Deleting a key really removes it: lookup after storeDelete is none. -/
theorem storeLookup_storeDelete (s : Store) (k : String) :
    storeLookup (storeDelete s k) k = none := by
  induction s with
  | nil => rfl
  | cons p rest ih =>
    obtain ⟨k', v⟩ := p
    by_cases h : k' = k
    · simpa [storeDelete, List.filter_cons, h] using ih
    · simpa [storeDelete, List.filter_cons, h, storeLookup] using ih

/-- The events emitted by acquire are only add attempts on its own key and the
fixed retry sleeps. -/
theorem acquire_events_addOrSleep (m : MemcacheMutex) (stores : Nat → Store)
    (nows : Nat → String) :
    ∀ fuel n es out, m.acquire stores nows fuel n = some (es, out) →
      ∀ e ∈ es,
        (∃ v b, e = Event.addAttempt m.key v b) ∨ e = Event.sleepMs retrySleepMs := by
  intro fuel
  induction fuel with
  | zero =>
    intro n es out h
    simp [MemcacheMutex.acquire] at h
  | succ f ih =>
    intro n es out h
    rw [MemcacheMutex.acquire] at h
    by_cases hok : (storeAdd (stores n) m.key (nows n)).1
    · simp only [hok, if_true] at h
      obtain ⟨h1, h2⟩ := Prod.mk.injEq .. ▸ (Option.some.injEq .. ▸ h)
      intro e he
      rw [← h1] at he
      simp at he
      exact Or.inl ⟨nows n, true, by simp [he, hok]⟩
    · simp only [Bool.not_eq_true] at hok
      simp only [hok, Bool.false_eq_true, if_false] at h
      by_cases hre : m.retry
      · simp only [hre, Bool.not_true, Bool.false_eq_true, if_false] at h
        rcases hrec : m.acquire stores nows f (n + 1) with _ | ⟨es0, out0⟩
        · rw [hrec] at h; simp at h
        · rw [hrec] at h
          simp only [Option.some.injEq, Prod.mk.injEq] at h
          obtain ⟨h1, _⟩ := h
          intro e he
          rw [← h1] at he
          rw [List.mem_cons, List.mem_cons] at he
          rcases he with he | he | he
          · exact Or.inl ⟨nows n, false, by simp [he, hok]⟩
          · exact Or.inr he
          · exact ih (n + 1) es0 out0 hrec e he
      · simp only [hre, Bool.not_false, if_true, Option.some.injEq,
          Prod.mk.injEq] at h
        obtain ⟨h1, _⟩ := h
        intro e he
        rw [← h1] at he
        simp at he
        exact Or.inl ⟨nows n, false, by simp [he, hok]⟩

/-- The acquire loop never deletes any key. -/
theorem acquire_count_deleteKey (m : MemcacheMutex) (stores : Nat → Store)
    (nows : Nat → String) (fuel n : Nat) (es : List Event) (out : AcqOutcome)
    (h : m.acquire stores nows fuel n = some (es, out)) (k : String) :
    es.count (Event.deleteKey k) = 0 := by
  rw [List.count_eq_zero]
  intro hmem
  rcases acquire_events_addOrSleep m stores nows fuel n es out h _ hmem with
    ⟨v, b, hv⟩ | hv <;> simp at hv

/-- With retry enabled and the key present at every attempt, the acquire loop
never returns, whatever the fuel and start index. -/
theorem acquire_blocks (key : String) (stores : Nat → Store)
    (nows : Nat → String) (h : ∀ n, storeLookup (stores n) key ≠ none)
    (fuel : Nat) :
    ∀ n, (⟨key, true⟩ : MemcacheMutex).acquire stores nows fuel n = none := by
  induction fuel with
  | zero => intro n; rfl
  | succ f ih =>
    intro n
    obtain ⟨v, hv⟩ := Option.ne_none_iff_exists'.mp (h n)
    rw [MemcacheMutex.acquire]
    simp [storeAdd, hv, ih (n + 1)]

/-- With retry enabled, if the key is present at the first k attempts after
start index n and absent at attempt n + k, the acquire loop with fuel above k
succeeds at that attempt, after k failed attempts each followed by one fixed
sleep, and the resulting store holds the key under this acquirer. -/
theorem acquire_succeeds_at (key : String) (stores : Nat → Store)
    (nows : Nat → String) :
    ∀ k n fuel, k < fuel →
      (∀ m, m < k → storeLookup (stores (n + m)) key ≠ none) →
      storeLookup (stores (n + k)) key = none →
      (⟨key, true⟩ : MemcacheMutex).acquire stores nows fuel n
        = some (retryTrace key nows n k ++ [Event.addAttempt key (nows (n + k)) true],
                .acquired ((key, nows (n + k)) :: stores (n + k))) := by
  intro k
  induction k with
  | zero =>
    intro n fuel hf h0 habs
    obtain ⟨f, rfl⟩ : ∃ f, fuel = f + 1 := ⟨fuel - 1, by omega⟩
    rw [MemcacheMutex.acquire]
    simp only [Nat.add_zero] at habs
    simp [storeAdd, habs, retryTrace]
  | succ k ih =>
    intro n fuel hf hpres habs
    obtain ⟨f, rfl⟩ : ∃ f, fuel = f + 1 := ⟨fuel - 1, by omega⟩
    have h0 : storeLookup (stores n) key ≠ none := by
      simpa using hpres 0 (Nat.succ_pos k)
    obtain ⟨v, hv⟩ := Option.ne_none_iff_exists'.mp h0
    have e1 : n + (k + 1) = (n + 1) + k := by omega
    have ih' := ih (n + 1) f (by omega)
      (fun m hm => by
        have h2 := hpres (m + 1) (by omega)
        have e2 : n + (m + 1) = (n + 1) + m := by omega
        rwa [e2] at h2)
      (by rwa [e1] at habs)
    rw [MemcacheMutex.acquire]
    rw [e1]
    simp [storeAdd, hv, ih', retryTrace]

/-- The retry trace of k failed attempts holds exactly k sleep events. -/
theorem retryTrace_count_sleep (key : String) (nows : Nat → String) :
    ∀ k n, (retryTrace key nows n k).count (Event.sleepMs retrySleepMs) = k := by
  intro k
  induction k with
  | zero => intro n; rfl
  | succ k ih => intro n; simp [retryTrace, List.count_cons, ih]

/-- Full run of main in fail-fast mode with the lock key already present:
one failed add attempt, AcquireDenied caught, the finally clause deletes the
key, exit(0). -/
theorem failfast_held_run (fuel : Nat) (rest : List String) (servers : String)
    (store : Store) (key : String) (nows : Nat → String) (child : ChildBehavior)
    (hheld : storeLookup store key ≠ none) (hfuel : 1 ≤ fuel) :
    sherlockMain fuel ("-once" :: rest) true servers store key nows child
      = ⟨.exitStatus 0, storeDelete store key,
         [Event.addAttempt key (nows 0) false, Event.deleteKey key]⟩ := by
  obtain ⟨f, rfl⟩ : ∃ f, fuel = f + 1 := ⟨fuel - 1, by omega⟩
  obtain ⟨v, hv⟩ := Option.ne_none_iff_exists'.mp hheld
  simp [sherlockMain, MemcacheMutex.acquire, storeAdd, hv, MemcacheMutex.release]

/-! ## Claim theorems -/

/-- C1: the claim fails on the code. run_process returns the raw os.waitpid
status (exit code in the high byte), main passes it to exit unchanged, and the
operating system keeps only the low byte. So a run with a free lock, a
reachable store, and a child exiting with status 7 calls exit(1792), observed
as exit status 0, not 7. -/
theorem c1_child_exit_seven_observed_as_zero :
    (sherlockMain 1 ["cmd"] true "127.0.0.1:11211" [] "mutex-default"
        (fun _ => "2013-01-01 00:00:00") (.exits 7)).result
      = .exitStatus (waitStatus 7)
    ∧ waitStatus 7 = 1792
    ∧ observedStatus (waitStatus 7) = 0
    ∧ observedStatus (waitStatus 7) ≠ 7 := by decide

/-- C2 counterexample: in fail-fast mode with the key held by another party,
the finally-clause release still deletes the key, so the pre-existing lock
record is NOT left untouched: the store ends empty. -/
theorem c2_preexisting_record_deleted_cex :
    (sherlockMain 1 ["-once", "cmd"] true "127.0.0.1:11211"
        [("mutex-default", "held-by-other")] "mutex-default"
        (fun _ => "2013-01-01 00:00:00") (.exits 0)).finalStore = []
    ∧ ([] : Store) ≠ [("mutex-default", "held-by-other")] := by decide

/-- C2 (amended): when the guard runs in fail-fast mode and the lock key
already exists in the store, the child is never spawned and the program exits
with status 0, but the pre-existing lock record is NOT left untouched: the
unconditional release in the finally clause deletes the other party's key, so
the key is absent from the store afterwards. -/
theorem c2_failfast_deletes_preexisting_record (fuel : Nat) (rest : List String)
    (servers : String) (store : Store) (key : String) (nows : Nat → String)
    (child : ChildBehavior) (hheld : storeLookup store key ≠ none)
    (hfuel : 1 ≤ fuel) :
    (sherlockMain fuel ("-once" :: rest) true servers store key nows child).result
      = .exitStatus 0
    ∧ Event.spawnChild ∉
        (sherlockMain fuel ("-once" :: rest) true servers store key nows child).events
    ∧ storeLookup
        (sherlockMain fuel ("-once" :: rest) true servers store key nows
          child).finalStore key = none := by
  rw [failfast_held_run fuel rest servers store key nows child hheld hfuel]
  exact ⟨rfl, by simp, storeLookup_storeDelete store key⟩

/-- Witness for the amended C2 at a concrete held store. -/
theorem c2_failfast_witness :
    storeLookup [("mutex-default", "held-by-other")] "mutex-default" ≠ none
    ∧ 1 ≤ 1
    ∧ ((sherlockMain 1 ["-once", "cmd"] true "srv"
          [("mutex-default", "held-by-other")] "mutex-default" (fun _ => "t")
          (.exits 0)).result = .exitStatus 0
       ∧ Event.spawnChild ∉
           (sherlockMain 1 ["-once", "cmd"] true "srv"
             [("mutex-default", "held-by-other")] "mutex-default" (fun _ => "t")
             (.exits 0)).events
       ∧ storeLookup
           (sherlockMain 1 ["-once", "cmd"] true "srv"
             [("mutex-default", "held-by-other")] "mutex-default" (fun _ => "t")
             (.exits 0)).finalStore "mutex-default" = none) :=
  ⟨by decide, by decide,
   c2_failfast_deletes_preexisting_record 1 ["cmd"] "srv"
     [("mutex-default", "held-by-other")] "mutex-default" (fun _ => "t")
     (.exits 0) (by decide) (by decide)⟩

/-- C7: with the store unreachable at startup and a nonempty argument list,
the constructor panics: the program ends in SystemExit with the nonzero
status 1 and a diagnostic message, the store is untouched, and no add, delete
or spawn event is issued. -/
theorem c7_unreachable_store_fatal (fuel : Nat) (a0 : String)
    (rest : List String) (servers : String) (store : Store) (key : String)
    (nows : Nat → String) (child : ChildBehavior) :
    sherlockMain fuel (a0 :: rest) false servers store key nows child
      = ⟨.fatalExit systemExitStatus ("No reachable memcache servers: " ++ servers),
         store, []⟩
    ∧ systemExitStatus ≠ 0 :=
  ⟨by simp [sherlockMain], by decide⟩

/-- C9: under fail-fast mode with the lock already held, acquisition raises
AcquireDenied, the child process is never spawned, and the program exits with
status 0 (observed status 0). -/
theorem c9_denied_skips_child (fuel : Nat) (rest : List String)
    (servers : String) (store : Store) (key : String) (nows : Nat → String)
    (child : ChildBehavior) (hheld : storeLookup store key ≠ none)
    (hfuel : 1 ≤ fuel) :
    (sherlockMain fuel ("-once" :: rest) true servers store key nows child).result
      = .exitStatus 0
    ∧ observedStatus 0 = 0
    ∧ Event.spawnChild ∉
        (sherlockMain fuel ("-once" :: rest) true servers store key nows
          child).events := by
  rw [failfast_held_run fuel rest servers store key nows child hheld hfuel]
  exact ⟨rfl, rfl, by simp⟩

/-- Witness for C9 at a concrete held store. -/
theorem c9_denied_witness :
    storeLookup [("lock", "taken")] "lock" ≠ none
    ∧ 1 ≤ 2
    ∧ ((sherlockMain 2 ["-once", "job"] true "srv" [("lock", "taken")] "lock"
          (fun _ => "u") (.exits 5)).result = .exitStatus 0
       ∧ observedStatus 0 = 0
       ∧ Event.spawnChild ∉
           (sherlockMain 2 ["-once", "job"] true "srv" [("lock", "taken")]
             "lock" (fun _ => "u") (.exits 5)).events) :=
  ⟨by decide, by decide,
   c9_denied_skips_child 2 ["job"] "srv" [("lock", "taken")] "lock"
     (fun _ => "u") (.exits 5) (by decide) (by decide)⟩

/-- C10: with an empty argument list, main raises an unhandled IndexError when
reading args[0], before the mutex is constructed: the store is unchanged and
no event (no add, no delete, no spawn) is issued. -/
theorem c10_empty_args_index_error (fuel : Nat) (reachable : Bool)
    (servers : String) (store : Store) (key : String) (nows : Nat → String)
    (child : ChildBehavior) :
    sherlockMain fuel [] reachable servers store key nows child
      = ⟨.indexError, store, []⟩ := rfl

/-- C3: on every path of main that reaches the final exit call after the mutex
is constructed — child ran, child spawn failed, or acquisition denied — the
event trace holds exactly one delete of the lock key, and it is the last event
before returning. -/
theorem c3_release_exactly_once (fuel : Nat) (argv : List String)
    (reachable : Bool) (servers : String) (store : Store) (key : String)
    (nows : Nat → String) (child : ChildBehavior)
    (h : (sherlockMain fuel argv reachable servers store key nows
           child).result.isExit = true) :
    (sherlockMain fuel argv reachable servers store key nows child).events.count
        (Event.deleteKey key) = 1
    ∧ (sherlockMain fuel argv reachable servers store key nows
        child).events.getLast? = some (Event.deleteKey key) := by
  cases argv with
  | nil => simp [sherlockMain, MainResult.isExit] at h
  | cons a0 rest =>
    cases reachable with
    | false => simp [sherlockMain, MainResult.isExit] at h
    | true =>
      rcases hacq : (⟨key, !(a0 == "-once")⟩ : MemcacheMutex).acquire
          (fun _ => store) nows fuel 0 with _ | ⟨es, out⟩
      · simp [sherlockMain, hacq, MainResult.isExit] at h
      · have hcnt : es.count (Event.deleteKey key) = 0 :=
          acquire_count_deleteKey _ _ _ fuel 0 es out hacq key
        cases out with
        | denied s =>
          simp [sherlockMain, hacq, MemcacheMutex.release, List.count_append,
            hcnt, List.getLast?_append_cons]
        | acquired s =>
          cases child with
          | spawnFailure =>
            simp [sherlockMain, hacq, run_process, MemcacheMutex.release,
              List.count_append, hcnt, List.getLast?_append_cons]
          | exits c =>
            simp [sherlockMain, hacq, run_process, MemcacheMutex.release,
              List.count_append, List.count_cons, hcnt,
              List.getLast?_append_cons]

/-- Witness for C3 on a run whose child exits with code 3. -/
theorem c3_release_witness :
    (sherlockMain 1 ["cmd"] true "srv" [] "k" (fun _ => "t")
        (.exits 3)).result.isExit = true
    ∧ ((sherlockMain 1 ["cmd"] true "srv" [] "k" (fun _ => "t")
          (.exits 3)).events.count (Event.deleteKey "k") = 1
       ∧ (sherlockMain 1 ["cmd"] true "srv" [] "k" (fun _ => "t")
           (.exits 3)).events.getLast? = some (Event.deleteKey "k")) :=
  ⟨by decide,
   c3_release_exactly_once 1 ["cmd"] true "srv" [] "k" (fun _ => "t")
     (.exits 3) (by decide)⟩

/-- C4: with retry enabled and the key initially present, acquire loops with a
fixed 100 ms sleep between attempts and no retry bound: it stays unresolved
under every fuel while the key is never absent (blocks forever); some fuel
makes it return iff the key is eventually deleted by another party; and when
the key is first absent at attempt n0, any fuel above n0 yields success after
exactly n0 sleeps of 100 ms, leaving the key present under this caller. -/
theorem c4_retry_terminates_iff_key_deleted (stores : Nat → Store)
    (nows : Nat → String) (key : String)
    (hinit : storeLookup (stores 0) key ≠ none) :
    ((∀ n, storeLookup (stores n) key ≠ none) →
      ∀ fuel n, (⟨key, true⟩ : MemcacheMutex).acquire stores nows fuel n = none)
    ∧ ((∃ fuel r, (⟨key, true⟩ : MemcacheMutex).acquire stores nows fuel 0
          = some r)
        ↔ ∃ n, storeLookup (stores n) key = none)
    ∧ (∀ n0, storeLookup (stores n0) key = none →
        (∀ m, m < n0 → storeLookup (stores m) key ≠ none) →
        ∀ fuel, n0 < fuel →
          (⟨key, true⟩ : MemcacheMutex).acquire stores nows fuel 0
            = some (retryTrace key nows 0 n0
                      ++ [Event.addAttempt key (nows n0) true],
                    .acquired ((key, nows n0) :: stores n0))
          ∧ storeLookup ((key, nows n0) :: stores n0) key = some (nows n0)
          ∧ (retryTrace key nows 0 n0).count (Event.sleepMs retrySleepMs)
              = n0) := by
  have hsucc : ∀ n0, storeLookup (stores n0) key = none →
      (∀ m, m < n0 → storeLookup (stores m) key ≠ none) →
      ∀ fuel, n0 < fuel →
        (⟨key, true⟩ : MemcacheMutex).acquire stores nows fuel 0
          = some (retryTrace key nows 0 n0
                    ++ [Event.addAttempt key (nows n0) true],
                  .acquired ((key, nows n0) :: stores n0)) := by
    intro n0 habs hmin fuel hf
    have h := acquire_succeeds_at key stores nows n0 0 fuel hf
      (fun m hm => by simpa using hmin m hm) (by simpa using habs)
    simpa using h
  refine ⟨fun h fuel n => acquire_blocks key stores nows h fuel n, ?_, ?_⟩
  · constructor
    · rintro ⟨fuel, r, hr⟩
      by_contra hno
      push_neg at hno
      rw [acquire_blocks key stores nows hno fuel 0] at hr
      exact Option.noConfusion hr
    · rintro ⟨n, hn⟩
      have hex : ∃ n, storeLookup (stores n) key = none := ⟨n, hn⟩
      refine ⟨Nat.find hex + 1, _,
        hsucc (Nat.find hex) (Nat.find_spec hex)
          (fun m hm => Nat.find_min hex hm) (Nat.find hex + 1) (by omega)⟩
  · intro n0 habs hmin fuel hf
    exact ⟨hsucc n0 habs hmin fuel hf, by simp [storeLookup],
      retryTrace_count_sleep key nows n0 0⟩

/-- Witness for C4 in the environment where the key is deleted at attempt 2. -/
theorem c4_retry_witness :
    storeLookup (storesHeldTwice 0) "k" ≠ none
    ∧ (((∀ n, storeLookup (storesHeldTwice n) "k" ≠ none) →
         ∀ fuel n, (⟨"k", true⟩ : MemcacheMutex).acquire storesHeldTwice
           (fun _ => "t") fuel n = none)
       ∧ ((∃ fuel r, (⟨"k", true⟩ : MemcacheMutex).acquire storesHeldTwice
             (fun _ => "t") fuel 0 = some r)
           ↔ ∃ n, storeLookup (storesHeldTwice n) "k" = none)
       ∧ (∀ n0, storeLookup (storesHeldTwice n0) "k" = none →
           (∀ m, m < n0 → storeLookup (storesHeldTwice m) "k" ≠ none) →
           ∀ fuel, n0 < fuel →
             (⟨"k", true⟩ : MemcacheMutex).acquire storesHeldTwice
                 (fun _ => "t") fuel 0
               = some (retryTrace "k" (fun _ => "t") 0 n0
                         ++ [Event.addAttempt "k" "t" true],
                       .acquired (("k", "t") :: storesHeldTwice n0))
             ∧ storeLookup (("k", "t") :: storesHeldTwice n0) "k" = some "t"
             ∧ (retryTrace "k" (fun _ => "t") 0 n0).count
                 (Event.sleepMs retrySleepMs) = n0)) :=
  ⟨by decide,
   c4_retry_terminates_iff_key_deleted storesHeldTwice (fun _ => "t") "k"
     (by decide)⟩

/-- C5: with retry disabled and the key present at the first attempt, acquire
raises AcquireDenied immediately: exactly one failed add attempt, the denied
outcome as a distinguished result, and no sleep in the trace. -/
theorem c5_failfast_denied_immediately (stores : Nat → Store)
    (nows : Nat → String) (key : String) (fuel : Nat)
    (hheld : storeLookup (stores 0) key ≠ none) (hfuel : 1 ≤ fuel) :
    (⟨key, false⟩ : MemcacheMutex).acquire stores nows fuel 0
      = some ([Event.addAttempt key (nows 0) false], .denied (stores 0))
    ∧ ∀ ms, Event.sleepMs ms ∉ [Event.addAttempt key (nows 0) false] := by
  obtain ⟨f, rfl⟩ : ∃ f, fuel = f + 1 := ⟨fuel - 1, by omega⟩
  obtain ⟨v, hv⟩ := Option.ne_none_iff_exists'.mp hheld
  constructor
  · rw [MemcacheMutex.acquire]
    simp [storeAdd, hv]
  · simp

/-- Witness for C5 at a concrete held store. -/
theorem c5_failfast_witness :
    storeLookup ((fun _ => [("k", "o")] : Nat → Store) 0) "k" ≠ none
    ∧ 1 ≤ 3
    ∧ ((⟨"k", false⟩ : MemcacheMutex).acquire (fun _ => [("k", "o")])
          (fun _ => "t") 3 0
        = some ([Event.addAttempt "k" "t" false], .denied [("k", "o")])
       ∧ ∀ ms, Event.sleepMs ms ∉ [Event.addAttempt "k" "t" false]) :=
  ⟨by decide, by decide,
   c5_failfast_denied_immediately (fun _ => [("k", "o")]) (fun _ => "t") "k" 3
     (by decide) (by decide)⟩

/-- C6: after a successful acquire followed by release the lock key is absent
from the store; moreover release deletes the key unconditionally for every
store state, with no check that the caller is the legitimate holder. -/
theorem c6_acquire_release_key_absent (m : MemcacheMutex) (stores : Nat → Store)
    (nows : Nat → String) (fuel : Nat) (es : List Event) (s' : Store)
    (hacq : m.acquire stores nows fuel 0 = some (es, .acquired s')) :
    storeLookup (m.release s').1 m.key = none
    ∧ ∀ t : Store, storeLookup (m.release t).1 m.key = none :=
  ⟨storeLookup_storeDelete s' m.key, fun t => storeLookup_storeDelete t m.key⟩

/-- Witness for C6 on a successful acquire over the empty store. -/
theorem c6_release_witness :
    (⟨"k", true⟩ : MemcacheMutex).acquire (fun _ => []) (fun _ => "t") 1 0
      = some ([Event.addAttempt "k" "t" true], .acquired [("k", "t")])
    ∧ (storeLookup ((⟨"k", true⟩ : MemcacheMutex).release [("k", "t")]).1 "k"
        = none
       ∧ ∀ t : Store,
           storeLookup ((⟨"k", true⟩ : MemcacheMutex).release t).1 "k" = none) :=
  ⟨by decide,
   c6_acquire_release_key_absent ⟨"k", true⟩ (fun _ => []) (fun _ => "t") 1
     [Event.addAttempt "k" "t" true] [("k", "t")] (by decide)⟩

/-- C8: when fork raises an exception in the parent, main catches and logs it,
does not crash, still releases the mutex exactly once, and exits with the
fallback zero status. -/
theorem c8_spawn_failure_handled (fuel : Nat) (a0 : String)
    (rest : List String) (servers : String) (store : Store) (key : String)
    (nows : Nat → String) (es : List Event) (s' : Store) (h0 : a0 ≠ "-once")
    (hacq : (⟨key, true⟩ : MemcacheMutex).acquire (fun _ => store) nows fuel 0
              = some (es, .acquired s')) :
    sherlockMain fuel (a0 :: rest) true servers store key nows .spawnFailure
      = ⟨.exitStatus 0, storeDelete s' key, es ++ [Event.deleteKey key]⟩
    ∧ (es ++ [Event.deleteKey key]).count (Event.deleteKey key) = 1
    ∧ observedStatus 0 = 0 := by
  have hb : (a0 == "-once") = false := by
    simpa using h0
  have hcnt : es.count (Event.deleteKey key) = 0 :=
    acquire_count_deleteKey _ _ _ fuel 0 es (.acquired s') hacq key
  refine ⟨?_, ?_, rfl⟩
  · simp [sherlockMain, hb, hacq, run_process, MemcacheMutex.release]
  · simp [List.count_append, hcnt]

/-- Witness for C8 on a run over the empty store with a failing fork. -/
theorem c8_spawn_witness :
    "cmd" ≠ "-once"
    ∧ (⟨"k", true⟩ : MemcacheMutex).acquire (fun _ => []) (fun _ => "t") 1 0
        = some ([Event.addAttempt "k" "t" true], .acquired [("k", "t")])
    ∧ (sherlockMain 1 ["cmd"] true "srv" [] "k" (fun _ => "t") .spawnFailure
         = ⟨.exitStatus 0, storeDelete [("k", "t")] "k",
            [Event.addAttempt "k" "t" true] ++ [Event.deleteKey "k"]⟩
       ∧ ([Event.addAttempt "k" "t" true]
            ++ [Event.deleteKey "k"]).count (Event.deleteKey "k") = 1
       ∧ observedStatus 0 = 0) :=
  ⟨by decide, by decide,
   c8_spawn_failure_handled 1 "cmd" [] "srv" [] "k" (fun _ => "t")
     [Event.addAttempt "k" "t" true] [("k", "t")] (by decide) (by decide)⟩
